import Mathlib

/-!
Verification of the headway-analysis engine (`analyze.py`).

Shallow embedding conventions:
* timestamps and distances are rationals (seconds / metres); Python datetimes
  are modelled as seconds, `datetime.hour` as `hourOf`;
* the external geometry collaborators (`getTravDistance`, the `ST_Distance`
  query inside `outlier`, and the `haversine` library call) are pure oracles
  stored in the `Env` record, exactly as the spec treats the route projector;
* Python runtime errors (`ZeroDivisionError`, `KeyError`, `IndexError`,
  numpy's `ValueError`) are modelled with `Except String`;
* the per-vehicle mutable dictionaries of `processAVL` become the fields of
  `VehState`; Python list `append` is `++ [a]`, `xs[-1]` is `xs.getLast?`,
  `xs[-1] = v` is `xs.dropLast ++ [v]`.
-/

namespace HeadwayAnalysis

/-- Position as a (lat, lng) pair of rationals. -/
abbrev Pos := ℚ × ℚ

/-- A bus stop row as built by `buildStopsFromFile`: id, terminal flag,
position, and integer travelled distance (`int(aStop["travdist"])`). -/
structure Stop where
  id : ℕ
  term : Bool
  lat : ℚ
  lng : ℚ
  dist : ℤ
deriving DecidableEq

/-- One AVL record as parsed at the top of the `processAVL` loop. -/
structure Ping where
  date : ℚ
  line : ℕ
  busID : ℕ
  lat : ℚ
  lng : ℚ
  letreiro : String
deriving DecidableEq

/-- Run environment: the CLI configuration of `processAVL` plus the pure
external collaborators (haversine, travelled-distance projection, and the
distance-from-route query used by `outlier`). -/
structure Env where
  line : ℕ
  startH : ℤ
  endH : ℤ
  hav : Pos → Pos → ℚ
  travDist : Pos → ℚ
  distFromRoute : Pos → ℚ
  busStops : List Stop

/-- The `.hour` field of a timestamp measured in seconds. -/
def hourOf (t : ℚ) : ℤ := ⌊t / 3600⌋ % 24

/-- `outlier` (analyze.py:140-160): a position is an outlier when its
distance from the route geometry is at least 250 metres. -/
def outlier (env : Env) (pos : Pos) : Bool :=
  decide (250 ≤ env.distFromRoute pos)

/-- Loop body of `getLastBusStop` (analyze.py:167-177): walk the stop table
in order, snapping to a terminal within 100 m or a regular stop within 15 m
(stopping the scan), otherwise remembering the last stop whose cumulative
distance was already travelled. -/
def getLastBusStopGo (hav : Pos → Pos → ℚ) (pos : Pos) (travDistance : ℚ) :
    List Stop → Stop → Bool → Stop × Bool
  | [], lastStop, within => (lastStop, within)
  | stop :: rest, lastStop, within =>
    if stop.term = true ∧ hav pos (stop.lat, stop.lng) ≤ 100 then
      (stop, true)
    else if stop.term = false ∧ hav pos (stop.lat, stop.lng) ≤ 15 then
      (stop, within)
    else if (stop.dist : ℚ) ≤ travDistance then
      getLastBusStopGo hav pos travDistance rest stop within
    else
      getLastBusStopGo hav pos travDistance rest lastStop within

/-- `getLastBusStop` (analyze.py:163-178).  The accumulator starts at
`busStops[1]`; a table without a stop of id 1 makes the Python code raise
`KeyError`, modelled by `none`. -/
def getLastBusStop (hav : Pos → Pos → ℚ) (pos : Pos) (travDistance : ℚ)
    (busStops : List Stop) : Option (Stop × Bool) :=
  match busStops.find? (fun st => st.id == 1) with
  | none => none
  | some s1 => some (getLastBusStopGo hav pos travDistance busStops s1 false)

lemma getLastBusStopGo_mem (hav : Pos → Pos → ℚ) (pos : Pos) (td : ℚ) :
    ∀ (l : List Stop) (lastStop : Stop) (w : Bool),
      (getLastBusStopGo hav pos td l lastStop w).1 = lastStop ∨
        (getLastBusStopGo hav pos td l lastStop w).1 ∈ l := by
  intro l
  induction l with
  | nil => intro lastStop w; left; rfl
  | cons stop rest ih =>
    intro lastStop w
    simp only [getLastBusStopGo]
    split
    · right; simp
    · split
      · right; simp
      · split
        · rcases ih stop w with h | h
          · right; simp [h]
          · right; simp [h]
        · rcases ih lastStop w with h | h
          · left; exact h
          · right; simp [h]

lemma getLastBusStopGo_frozen (hav : Pos → Pos → ℚ) (pos : Pos) (td : ℚ) :
    ∀ (l : List Stop) (lastStop : Stop) (w : Bool),
      (∀ st ∈ l, ¬(st.term = true ∧ hav pos (st.lat, st.lng) ≤ 100) ∧
                 ¬(st.term = false ∧ hav pos (st.lat, st.lng) ≤ 15) ∧
                 ¬((st.dist : ℚ) ≤ td)) →
      getLastBusStopGo hav pos td l lastStop w = (lastStop, w) := by
  intro l
  induction l with
  | nil => intro lastStop w _; rfl
  | cons stop rest ih =>
    intro lastStop w h
    have hstop := h stop (by simp)
    have hrest : ∀ st ∈ rest, ¬(st.term = true ∧ hav pos (st.lat, st.lng) ≤ 100) ∧
        ¬(st.term = false ∧ hav pos (st.lat, st.lng) ≤ 15) ∧ ¬((st.dist : ℚ) ≤ td) := by
      intro st hst; exact h st (by simp [hst])
    simp only [getLastBusStopGo]
    rw [if_neg hstop.1, if_neg hstop.2.1, if_neg hstop.2.2]
    exact ih lastStop w hrest

/-- C10: the stop matcher is total whenever the table holds a stop of id 1,
its result is drawn from the table, and with no snap and a travelled
distance below every stop's cumulative distance it falls back to stop 1. -/
theorem getLastBusStop_total (hav : Pos → Pos → ℚ) (pos : Pos) (td : ℚ)
    (busStops : List Stop) (s1 : Stop)
    (h1 : busStops.find? (fun st => st.id == 1) = some s1) :
    (∃ r, getLastBusStop hav pos td busStops = some r ∧ r.1 ∈ busStops) ∧
    ((∀ st ∈ busStops,
        (st.term = true → 100 < hav pos (st.lat, st.lng)) ∧
        (st.term = false → 15 < hav pos (st.lat, st.lng)) ∧
        td < (st.dist : ℚ)) →
      getLastBusStop hav pos td busStops = some (s1, false)) := by
  have hs1mem : s1 ∈ busStops := List.mem_of_find?_eq_some h1
  constructor
  · refine ⟨getLastBusStopGo hav pos td busStops s1 false, ?_, ?_⟩
    · simp [getLastBusStop, h1]
    · rcases getLastBusStopGo_mem hav pos td busStops s1 false with h | h
      · rw [h]; exact hs1mem
      · exact h
  · intro hnone
    have : getLastBusStopGo hav pos td busStops s1 false = (s1, false) := by
      apply getLastBusStopGo_frozen
      intro st hst
      obtain ⟨ht, hn, hd⟩ := hnone st hst
      refine ⟨?_, ?_, ?_⟩
      · rintro ⟨hterm, hle⟩; exact absurd hle (not_le.mpr (ht hterm))
      · rintro ⟨hterm, hle⟩; exact absurd hle (not_le.mpr (hn hterm))
      · exact not_le.mpr hd
    simp [getLastBusStop, h1, this]

/-- Witness for `getLastBusStop_total` on a concrete two-stop table and a
position far from both stops. -/
theorem getLastBusStop_total_witness :
    getLastBusStop (fun _ _ => 1000) (50, 50) (-5)
      [⟨1, true, 0, 0, 0⟩, ⟨2, false, 2, 2, 200⟩] =
      some (⟨1, true, 0, 0, 0⟩, false) :=
  (getLastBusStop_total (fun _ _ => 1000) (50, 50) (-5)
    [⟨1, true, 0, 0, 0⟩, ⟨2, false, 2, 2, 200⟩] ⟨1, true, 0, 0, 0⟩ (by decide)).2
    (by decide)

/-- Per-vehicle mutable state of `processAVL`: `lastRegBusPosition[busID]`,
`lastRegBusStop[busID]` and the four parallel lists of `trips[busID]`
(estimated pass times `x`, raw dates `d`, stop ids `y`, positions `p`). -/
structure VehState where
  lastPos : Option Ping
  lastStop : Option Stop
  x : List ℚ
  d : List ℚ
  y : List ℕ
  p : List Pos
deriving DecidableEq

/-- Fresh state: the default entries of the Python defaultdicts. -/
def initState : VehState := ⟨none, none, [], [], [], []⟩

/-- A pass event appended to `rawHeadway`: (stop id, bus id, pass time). -/
abbrev Event := ℕ × ℕ × ℚ

/-- One iteration of the interpolation loop (analyze.py:402-407): look up
`busStops[prevStopIndex + i + 1]` (a missing key raises) and estimate the
pass time at that stop from the previous ping's projected distance and the
segment velocity; zero velocity degenerates to the previous timestamp. -/
def interpStop (busStops : List Stop) (prevDistance prevDate velocity : ℚ)
    (idx : ℕ) : Except String (ℚ × ℕ) :=
  match busStops.find? (fun st => st.id == idx) with
  | none => .error "KeyError"
  | some passedStop =>
    let distancePassedBusStop : ℚ := (passedStop.dist : ℚ) - prevDistance
    .ok (if velocity ≠ 0 then prevDate + distancePassedBusStop / velocity else prevDate,
         passedStop.id)

/-- The whole `for i in range(numTravStops)` loop, producing the
(pass time, stop id) entries appended to the trip buffer in order. -/
def interpStopsList (busStops : List Stop) (prevStopIndex : ℕ)
    (prevDistance prevDate velocity : ℚ) : ℕ → Except String (List (ℚ × ℕ))
  | 0 => .ok []
  | k + 1 =>
    match interpStopsList busStops prevStopIndex prevDistance prevDate velocity k with
    | .error e => .error e
    | .ok l =>
      match interpStop busStops prevDistance prevDate velocity (prevStopIndex + k + 1) with
      | .error e => .error e
      | .ok entry => .ok (l ++ [entry])

/-- The "data muito passada" condition (analyze.py:322-331) deciding a
stale-gap trip reset, over the values computed at that point of the loop. -/
def staleGapReset (env : Env) (lastReg : Stop) (lastX : ℚ) (lastP : Pos)
    (xlen : ℕ) (prevDate distance prevDistance : ℚ) (lastBusStop : Stop)
    (ping : Ping) : Bool :=
  decide ((lastReg.term = true ∧ 120 < ping.date - lastX ∧
            env.hav (ping.lat, ping.lng) lastP ≤ 100)
    ∨ (lastReg.term = true ∧ 300 < ping.date - prevDate)
    ∨ (distance ≤ prevDistance ∧ lastReg.id ≠ lastBusStop.id ∧ xlen < 5))

/-- Body of the `processAVL` loop for one in-window, non-duplicate ping
(analyze.py:271-424).  Branches, in source order: outlier filter; travelled
distance and stop matching; cold start; stale-gap reset (overwriting the
last buffered sample); backward jump to stop 1 with a short buffer
(re-seeding at the previous ping); backward jump into the first two stops
(flush the trip, appending a synthetic stop-37 sample); any other backward
jump (position update only); the stop-35/36-after-stop-1 curvature artifact
(position update only); forward progress with interpolation.  The source
also recomputes `getLastBusStop` at the previous position (line 316); its
result is unused and it can only fail when stop id 1 is absent, which the
current-position lookup has already ruled out, so it is not repeated here.
The debug prints and the `periodicidade` accumulator are side-effect-free
instrumentation and are omitted. -/
def processPingBody (env : Env) (s : VehState) (ping : Ping) :
    Except String (VehState × List Event) :=
  if outlier env (ping.lat, ping.lng) then
    .ok ({ s with lastPos := some ping, lastStop := none }, [])
  else
    let distance := env.travDist (ping.lat, ping.lng)
    match getLastBusStop env.hav (ping.lat, ping.lng) distance env.busStops with
    | none => .error "KeyError"
    | some (lastBusStop, _within) =>
      match s.lastStop with
      | none =>
        .ok ({ lastPos := some ping, lastStop := some lastBusStop,
               x := [ping.date], d := [ping.date], y := [lastBusStop.id],
               p := [(ping.lat, ping.lng)] }, [])
      | some lastReg =>
        match s.lastPos with
        | none => .error "KeyError"
        | some prevAVL =>
          let prevDate := prevAVL.date
          let prevDistance := env.travDist (prevAVL.lat, prevAVL.lng)
          match s.x.getLast?, s.p.getLast? with
          | some lastX, some lastP =>
            if staleGapReset env lastReg lastX lastP s.x.length prevDate distance
                prevDistance lastBusStop ping then
              .ok ({ lastPos := some ping, lastStop := some lastBusStop,
                     x := s.x.dropLast ++ [ping.date],
                     d := s.d.dropLast ++ [ping.date],
                     y := s.y.dropLast ++ [lastBusStop.id],
                     p := s.p.dropLast ++ [(ping.lat, ping.lng)] }, [])
            else if s.x.length ≤ 2 ∧ lastReg.id > lastBusStop.id ∧ lastBusStop.id = 1 then
              .ok ({ lastPos := some prevAVL, lastStop := some lastBusStop,
                     x := [prevDate], d := [prevDate], y := [lastBusStop.id],
                     p := [(prevAVL.lat, prevAVL.lng)] }, [])
            else if lastReg.id > lastBusStop.id ∧ lastBusStop.id ≤ 2 then
              if s.x ≠ [] then
                let xs := s.x ++ [ping.date]
                let ys := s.y ++ [37]
                .ok ({ lastPos := some ping, lastStop := none,
                       x := [], d := [], y := [], p := [] },
                     (ys.zip xs).map (fun pr => (pr.1, ping.busID, pr.2)))
              else
                .ok ({ s with lastPos := some ping, lastStop := some lastBusStop }, [])
            else if lastReg.id > lastBusStop.id then
              .ok ({ s with lastPos := some ping }, [])
            else if (lastBusStop.id = 35 ∨ lastBusStop.id = 36) ∧ lastReg.id = 1 then
              .ok ({ s with lastPos := some ping }, [])
            else
              if lastBusStop.id > lastReg.id then
                if ping.date - prevDate = 0 then .error "ZeroDivisionError"
                else
                  let velocity := (distance - prevDistance) / (ping.date - prevDate)
                  match interpStopsList env.busStops lastReg.id prevDistance prevDate
                      velocity (lastBusStop.id - lastReg.id) with
                  | .error e => .error e
                  | .ok entries =>
                    .ok ({ lastPos := some ping, lastStop := some lastBusStop,
                           x := s.x ++ entries.map (fun e => e.1),
                           d := s.d ++ entries.map (fun _ => ping.date),
                           y := s.y ++ entries.map (fun e => e.2),
                           p := s.p ++ entries.map (fun _ => (ping.lat, ping.lng)) }, [])
              else
                .ok ({ s with lastPos := some ping, lastStop := some lastBusStop }, [])
          | _, _ => .error "IndexError"

/-- Processing of a single AVL record for its vehicle (analyze.py:261-424):
the route/window/service filter, then the duplicate-position filter, then
`processPingBody`. -/
def processPing (env : Env) (s : VehState) (ping : Ping) :
    Except String (VehState × List Event) :=
  if ping.line = env.line ∧ env.startH ≤ hourOf ping.date ∧
      hourOf ping.date < env.endH ∧ ping.letreiro ≠ "FORA DE SERVICO" then
    match s.lastPos with
    | some lp =>
      if lp.lat = ping.lat ∧ lp.lng = ping.lng then .ok (s, [])
      else processPingBody env s ping
    | none => processPingBody env s ping
  else
    .ok (s, [])

/-- Folding `processPing` over a time-ordered list of pings of one vehicle,
concatenating the emitted events. -/
def runPings (env : Env) (s : VehState) : List Ping → Except String (VehState × List Event)
  | [] => .ok (s, [])
  | ping :: rest =>
    match processPing env s ping with
    | .error e => .error e
    | .ok (s1, ev1) =>
      match runPings env s1 rest with
      | .error e => .error e
      | .ok (s2, ev2) => .ok (s2, ev1 ++ ev2)

deriving instance DecidableEq for Except

/-- Concrete five-stop table used for concrete evaluations. -/
def exStops : List Stop :=
  [⟨1, true, 0, 0, 0⟩, ⟨2, false, 2, 2, 200⟩, ⟨3, false, 3, 3, 300⟩,
   ⟨5, false, 5, 5, 500⟩, ⟨6, false, 6, 6, 600⟩]

/-- Concrete environment: haversine oracle snapping only exact position
matches, travelled distance `100·lat`, and an off-route band at `lat = 50`. -/
def exEnv : Env :=
  ⟨400, 5, 12, fun a b => if a = b then 0 else 1000,
   fun pos => pos.1 * 100, fun pos => if pos.1 = 50 then 300 else 0, exStops⟩

/-- In-window ping of vehicle 7 at the terminal stop 1. -/
def exPingA : Ping := ⟨21600, 400, 7, 0, 0, "EM OPERACAO"⟩

/-- Second ping of vehicle 7, at stop 2, with the same timestamp as
`exPingA` but a different position. -/
def exPingASame : Ping := ⟨21600, 400, 7, 2, 2, "EM OPERACAO"⟩

/-- C1 counterexample: with an established previous accepted ping, an
accepted, non-duplicate, non-outlier ping with `elapsed_seconds == 0` that
crosses a stop boundary does NOT complete normally: the velocity division
`deltaDistance / deltaDate` raises `ZeroDivisionError`. -/
theorem zero_elapsed_is_error :
    runPings exEnv initState [exPingA, exPingASame] = .error "ZeroDivisionError" := by
  have hs : ("EM OPERACAO" = "FORA DE SERVICO") = False := by
    simp only [eq_iff_iff, iff_false]; decide
  norm_num [runPings, processPing, processPingBody, outlier, getLastBusStop,
    getLastBusStopGo, staleGapReset, hourOf, exEnv, exStops, exPingA, exPingASame,
    initState, hs]

/-- Established tracking state of vehicle 7 right after `exPingA`. -/
def exStateA : VehState :=
  ⟨some exPingA, some ⟨1, true, 0, 0, 0⟩, [21600], [21600], [1], [(0, 0)]⟩

/-- C1 amended: with an established previous accepted ping, an accepted,
non-duplicate, non-outlier ping that advances the matched stop while
`elapsed_seconds == 0` makes `processAVL` raise `ZeroDivisionError` in the
velocity computation instead of completing normally. -/
theorem zero_elapsed_raises (env : Env) (s : VehState) (ping : Ping)
    (lastReg lb : Stop) (prevAVL : Ping) (w : Bool) (lastX : ℚ) (lastP : Pos)
    (hwin : ping.line = env.line ∧ env.startH ≤ hourOf ping.date ∧
      hourOf ping.date < env.endH ∧ ping.letreiro ≠ "FORA DE SERVICO")
    (hpos : s.lastPos = some prevAVL)
    (hdup : ¬(prevAVL.lat = ping.lat ∧ prevAVL.lng = ping.lng))
    (hout : outlier env (ping.lat, ping.lng) = false)
    (hmatch : getLastBusStop env.hav (ping.lat, ping.lng)
        (env.travDist (ping.lat, ping.lng)) env.busStops = some (lb, w))
    (hstop : s.lastStop = some lastReg)
    (hx : s.x.getLast? = some lastX) (hp : s.p.getLast? = some lastP)
    (hreset : staleGapReset env lastReg lastX lastP s.x.length prevAVL.date
        (env.travDist (ping.lat, ping.lng)) (env.travDist (prevAVL.lat, prevAVL.lng))
        lb ping = false)
    (hcurve : ¬((lb.id = 35 ∨ lb.id = 36) ∧ lastReg.id = 1))
    (hfwd : lastReg.id < lb.id)
    (hzero : ping.date = prevAVL.date) :
    processPing env s ping = .error "ZeroDivisionError" := by
  have hzero' : ping.date - prevAVL.date = 0 := by rw [hzero, sub_self]
  simp only [processPing, hpos, if_pos hwin]
  rw [if_neg hdup]
  simp only [processPingBody, hout, Bool.false_eq_true, if_false, hmatch, hstop, hpos,
    hx, hp, hreset]
  rw [if_neg (by rintro ⟨-, h, -⟩; omega : ¬(s.x.length ≤ 2 ∧ lastReg.id > lb.id ∧ lb.id = 1))]
  rw [if_neg (by rintro ⟨h, -⟩; omega : ¬(lastReg.id > lb.id ∧ lb.id ≤ 2))]
  rw [if_neg (by omega : ¬(lastReg.id > lb.id))]
  rw [if_neg hcurve, if_pos hfwd, if_pos hzero']

/-- Witness for `zero_elapsed_raises` at the concrete scenario of
`zero_elapsed_is_error`. -/
theorem zero_elapsed_raises_witness :
    processPing exEnv exStateA exPingASame = .error "ZeroDivisionError" :=
  zero_elapsed_raises exEnv exStateA exPingASame ⟨1, true, 0, 0, 0⟩
    ⟨2, false, 2, 2, 200⟩ exPingA false 21600 (0, 0)
    (by refine ⟨rfl, ?_, ?_, by decide⟩ <;> norm_num [hourOf, exEnv, exPingASame])
    rfl (by norm_num [exPingA, exPingASame]) (by norm_num [outlier, exEnv, exPingASame])
    (by norm_num [getLastBusStop, getLastBusStopGo, exEnv, exStops, exPingASame])
    rfl rfl rfl
    (by norm_num [staleGapReset, exEnv, exPingA, exPingASame, exStateA])
    (by norm_num) (by norm_num) (by norm_num [exPingA, exPingASame])

/-- Cold-start ping of vehicle 7 at stop 5. -/
def exPing5 : Ping := ⟨21600, 400, 7, 5, 5, "EM OPERACAO"⟩

/-- Forward-progress ping of vehicle 7 at stop 6. -/
def exPingB : Ping := ⟨21700, 400, 7, 6, 6, "EM OPERACAO"⟩

/-- Backward ping of vehicle 7 at stop 3 with less projected distance,
triggering the no-progress stale-gap reset clause. -/
def exPingC : Ping := ⟨21800, 400, 7, 3, 3, "EM OPERACAO"⟩

/-- Tracking state of vehicle 7 after `exPing5` and `exPingB`: the trip
buffer holds the two samples at stops 5 and 6. -/
def exResetState : VehState :=
  ⟨some exPingB, some ⟨6, false, 6, 6, 600⟩, [21600, 21700], [21600, 21700],
   [5, 6], [(5, 5), (6, 6)]⟩

/-- C3 counterexample: a stale-gap reset on a two-sample buffer does NOT
restart a fresh trip holding only the new ping's sample ([3]); it merely
overwrites the last buffered sample, leaving [5, 3]. -/
theorem stale_gap_reset_keeps_old_samples :
    (processPing exEnv exResetState exPingC).map (fun r => (r.1.y, r.2)) =
      .ok (([5, 3] : List ℕ), ([] : List Event)) ∧
    ([5, 3] : List ℕ) ≠ [3] := by
  constructor
  · have hs : ("EM OPERACAO" = "FORA DE SERVICO") = False := by
      simp only [eq_iff_iff, iff_false]; decide
    norm_num [processPing, processPingBody, outlier, getLastBusStop,
      getLastBusStopGo, staleGapReset, hourOf, exEnv, exStops, exPingB, exPingC,
      exResetState, hs, Except.map]
  · decide

/-- C3 amended: when the stale-gap condition fires, the tracker keeps all
earlier buffer samples, overwrites only the LAST sample of each buffer list
with the new ping's data, updates the last position and matched stop, and
emits no events (a fresh one-sample trip results only when the buffer held
a single sample). -/
theorem stale_gap_reset_overwrites_last (env : Env) (s : VehState) (ping : Ping)
    (lastReg lb : Stop) (prevAVL : Ping) (w : Bool) (lastX : ℚ) (lastP : Pos)
    (hwin : ping.line = env.line ∧ env.startH ≤ hourOf ping.date ∧
      hourOf ping.date < env.endH ∧ ping.letreiro ≠ "FORA DE SERVICO")
    (hpos : s.lastPos = some prevAVL)
    (hdup : ¬(prevAVL.lat = ping.lat ∧ prevAVL.lng = ping.lng))
    (hout : outlier env (ping.lat, ping.lng) = false)
    (hmatch : getLastBusStop env.hav (ping.lat, ping.lng)
        (env.travDist (ping.lat, ping.lng)) env.busStops = some (lb, w))
    (hstop : s.lastStop = some lastReg)
    (hx : s.x.getLast? = some lastX) (hp : s.p.getLast? = some lastP)
    (hreset : staleGapReset env lastReg lastX lastP s.x.length prevAVL.date
        (env.travDist (ping.lat, ping.lng)) (env.travDist (prevAVL.lat, prevAVL.lng))
        lb ping = true) :
    processPing env s ping =
      .ok ({ lastPos := some ping, lastStop := some lb,
             x := s.x.dropLast ++ [ping.date], d := s.d.dropLast ++ [ping.date],
             y := s.y.dropLast ++ [lb.id],
             p := s.p.dropLast ++ [(ping.lat, ping.lng)] }, []) := by
  simp only [processPing, hpos, if_pos hwin]
  rw [if_neg hdup]
  simp only [processPingBody, hout, Bool.false_eq_true, if_false, hmatch, hstop, hpos,
    hx, hp, hreset, if_true]

/-- Witness for `stale_gap_reset_overwrites_last` at the concrete reset of
`stale_gap_reset_keeps_old_samples`. -/
theorem stale_gap_reset_overwrites_last_witness :
    processPing exEnv exResetState exPingC =
      .ok (⟨some exPingC, some ⟨3, false, 3, 3, 300⟩, [21600, 21800], [21600, 21800],
            [5, 3], [(5, 5), (3, 3)]⟩, []) := by
  have h := stale_gap_reset_overwrites_last exEnv exResetState exPingC
    ⟨6, false, 6, 6, 600⟩ ⟨3, false, 3, 3, 300⟩ exPingB false 21700 (6, 6)
    (by refine ⟨rfl, ?_, ?_, by decide⟩ <;> norm_num [hourOf, exEnv, exPingC])
    rfl (by norm_num [exPingB, exPingC]) (by norm_num [outlier, exEnv, exPingC])
    (by norm_num [getLastBusStop, getLastBusStopGo, exEnv, exStops, exPingC])
    rfl rfl rfl
    (by norm_num [staleGapReset, exEnv, exPingB, exPingC, exResetState])
  rw [h]
  norm_num [exResetState, exPingC]

/-- C8: a ping whose latitude and longitude both equal the last registered
position's is skipped entirely: unchanged state, zero events. -/
theorem duplicate_ping_noop (env : Env) (s : VehState) (ping : Ping) (lp : Ping)
    (hwin : ping.line = env.line ∧ env.startH ≤ hourOf ping.date ∧
      hourOf ping.date < env.endH ∧ ping.letreiro ≠ "FORA DE SERVICO")
    (hlp : s.lastPos = some lp)
    (hlat : lp.lat = ping.lat) (hlng : lp.lng = ping.lng) :
    processPing env s ping = .ok (s, []) := by
  simp only [processPing, hlp, if_pos hwin]
  rw [if_pos ⟨hlat, hlng⟩]

/-- Later ping of vehicle 7 at exactly the position of `exPingA`. -/
def exPingDup : Ping := ⟨21650, 400, 7, 0, 0, "EM OPERACAO"⟩

/-- Witness for `duplicate_ping_noop`. -/
theorem duplicate_ping_noop_witness :
    processPing exEnv exStateA exPingDup = .ok (exStateA, []) :=
  duplicate_ping_noop exEnv exStateA exPingDup exPingA
    (by refine ⟨rfl, ?_, ?_, by decide⟩ <;> norm_num [hourOf, exEnv, exPingDup])
    rfl rfl rfl

/-- C9 counterexample: after the accepted prefix `exPing5, exPingB, exPingC`
the trip buffer's stop ids are [5, 3], which is not non-decreasing. -/
theorem buffer_not_monotone :
    (runPings exEnv initState [exPing5, exPingB, exPingC]).map (fun r => r.1.y) =
      .ok ([5, 3] : List ℕ) ∧
    ¬ List.Chain' (fun a b => a ≤ b) ([5, 3] : List ℕ) := by
  constructor
  · have hs : ("EM OPERACAO" = "FORA DE SERVICO") = False := by
      simp only [eq_iff_iff, iff_false]; decide
    norm_num [runPings, processPing, processPingBody, outlier, getLastBusStop,
      getLastBusStopGo, staleGapReset, interpStopsList, interpStop, hourOf,
      exEnv, exStops, exPing5, exPingB, exPingC, initState, hs, Except.map]
  · norm_num [List.chain'_cons, List.chain'_singleton]

/-- C7: an outlier ping (distance from route at least the threshold) sets
the last registered position to the ping, clears the last matched stop and
emits no events; the next accepted, non-duplicate, non-outlier ping then
cold-starts a fresh one-sample trip instead of interpolating across the
gap. -/
theorem outlier_ping_resets (env : Env) (s : VehState) (ping q : Ping)
    (lb : Stop) (w : Bool)
    (hwin : ping.line = env.line ∧ env.startH ≤ hourOf ping.date ∧
      hourOf ping.date < env.endH ∧ ping.letreiro ≠ "FORA DE SERVICO")
    (hdup : ∀ lp, s.lastPos = some lp → ¬(lp.lat = ping.lat ∧ lp.lng = ping.lng))
    (hout : outlier env (ping.lat, ping.lng) = true) :
    processPing env s ping = .ok ({ s with lastPos := some ping, lastStop := none }, []) ∧
    ((q.line = env.line ∧ env.startH ≤ hourOf q.date ∧ hourOf q.date < env.endH ∧
        q.letreiro ≠ "FORA DE SERVICO") →
      ¬(ping.lat = q.lat ∧ ping.lng = q.lng) →
      outlier env (q.lat, q.lng) = false →
      getLastBusStop env.hav (q.lat, q.lng) (env.travDist (q.lat, q.lng)) env.busStops
        = some (lb, w) →
      processPing env { s with lastPos := some ping, lastStop := none } q =
        .ok (⟨some q, some lb, [q.date], [q.date], [lb.id], [(q.lat, q.lng)]⟩, [])) := by
  constructor
  · cases hsp : s.lastPos with
    | none => simp only [processPing, if_pos hwin, hsp, processPingBody, hout, if_true]
    | some lp =>
      simp only [processPing, if_pos hwin, hsp]
      rw [if_neg (hdup lp hsp)]
      simp only [processPingBody, hout, if_true]
  · intro hwinq hdupq houtq hmatchq
    simp only [processPing, if_pos hwinq]
    rw [if_neg hdupq]
    simp only [processPingBody, houtq, Bool.false_eq_true, if_false, hmatchq]

/-- Off-route ping of vehicle 7 (latitude 50 puts it 300 m off route). -/
def exPingOut : Ping := ⟨21650, 400, 7, 50, 50, "EM OPERACAO"⟩

/-- Accepted ping of vehicle 7 at stop 2 after the outlier. -/
def exPingQ : Ping := ⟨21750, 400, 7, 2, 2, "EM OPERACAO"⟩

/-- Witness for `outlier_ping_resets`. -/
theorem outlier_ping_resets_witness :
    processPing exEnv exStateA exPingOut =
      .ok ({ exStateA with lastPos := some exPingOut, lastStop := none }, []) ∧
    processPing exEnv { exStateA with lastPos := some exPingOut, lastStop := none } exPingQ =
      .ok (⟨some exPingQ, some ⟨2, false, 2, 2, 200⟩, [21750], [21750], [2], [(2, 2)]⟩, []) := by
  have h := outlier_ping_resets exEnv exStateA exPingOut exPingQ ⟨2, false, 2, 2, 200⟩ false
    (by refine ⟨rfl, ?_, ?_, by decide⟩ <;> norm_num [hourOf, exEnv, exPingOut])
    (by intro lp hlp hpos
        have heq : exPingA = lp := by simpa [exStateA] using hlp
        rw [← heq] at hpos
        exact absurd hpos.1 (by norm_num [exPingA, exPingOut]))
    (by norm_num [outlier, exEnv, exPingOut])
  refine ⟨h.1, h.2 ?_ ?_ ?_ ?_⟩
  · refine ⟨rfl, ?_, ?_, by decide⟩ <;> norm_num [hourOf, exEnv, exPingQ]
  · norm_num [exPingOut, exPingQ]
  · norm_num [outlier, exEnv, exPingQ]
  · norm_num [getLastBusStop, getLastBusStopGo, exEnv, exStops, exPingQ]

/-- One iteration of the end-of-stream extrapolation loop
(analyze.py:440-450): stops before 37 are looked up in the table, stop 37
uses the hard-coded route length 14525 m. -/
def extraStop (busStops : List Stop) (prevDistance prevDate velocity : ℚ)
    (idx : ℕ) : Except String (ℚ × ℕ) :=
  if idx ≠ 37 then
    match busStops.find? (fun st => st.id == idx) with
    | none => .error "KeyError"
    | some passedStop =>
      let dp : ℚ := (passedStop.dist : ℚ) - prevDistance
      .ok (if velocity ≠ 0 then prevDate + dp / velocity else prevDate, passedStop.id)
  else
    let dp : ℚ := 14525 - prevDistance
    .ok (if velocity ≠ 0 then prevDate + dp / velocity else prevDate, 37)

/-- The whole `for i in range(toFinishStop)` extrapolation loop. -/
def extraStops (busStops : List Stop) (prevStopIndex : ℕ)
    (prevDistance prevDate velocity : ℚ) : ℕ → Except String (List (ℚ × ℕ))
  | 0 => .ok []
  | k + 1 =>
    match extraStops busStops prevStopIndex prevDistance prevDate velocity k with
    | .error e => .error e
    | .ok l =>
      match extraStop busStops prevDistance prevDate velocity (prevStopIndex + k + 1) with
      | .error e => .error e
      | .ok entry => .ok (l ++ [entry])

/-- End-of-stream handling of one vehicle's leftover state
(analyze.py:430-459): buffers of more than 3 samples whose first sample's
hour is at least the window start are always flushed into `rawHeadway`;
when the last buffered stop is 1 or 2 stops short of 37 the remaining
stops are first extrapolated at the velocity of the last two buffered
samples (`getVelocityAndDistance`, whose zero time delta raises). -/
def flushVehicle (env : Env) (busID : ℕ) (s : VehState) : Except String (List Event) :=
  if s.y.length > 3 then
    match s.x.head? with
    | none => .error "IndexError"
    | some x0 =>
      if env.startH ≤ hourOf x0 then
        match s.y.getLast? with
        | none => .error "IndexError"
        | some ylast =>
          if 0 < (37 : ℤ) - (ylast : ℤ) ∧ (37 : ℤ) - (ylast : ℤ) < 3 then
            match s.p.getLast?, s.p.dropLast.getLast?, s.x.getLast?, s.x.dropLast.getLast? with
            | some pL, some pL2, some xL, some xL2 =>
              if xL - xL2 = 0 then .error "ZeroDivisionError"
              else
                let velocity := (env.travDist pL - env.travDist pL2) / (xL - xL2)
                match extraStops env.busStops ylast (env.travDist pL) xL velocity
                    ((37 : ℤ) - (ylast : ℤ)).toNat with
                | .error e => .error e
                | .ok entries =>
                  .ok (((s.y ++ entries.map (fun e => e.2)).zip
                        (s.x ++ entries.map (fun e => e.1))).map
                       (fun pr => (pr.1, busID, pr.2)))
            | _, _, _, _ => .error "IndexError"
          else
            .ok ((s.y.zip s.x).map (fun pr => (pr.1, busID, pr.2)))
      else .ok []
  else .ok []

/-- Leftover state whose buffer stalled 29 stops short of the terminal. -/
def exFarState : VehState :=
  ⟨none, none, [21600, 21700, 21800, 21900], [21600, 21700, 21800, 21900],
   [5, 6, 7, 8], [(5, 5), (6, 6), (7, 7), (8, 8)]⟩

/-- C2 counterexample: at end of stream a vehicle stalled far short of the
terminal (29 stops here) is NOT discarded with zero events; all four
buffered samples are emitted as pass events. -/
theorem far_from_terminal_still_flushes :
    flushVehicle exEnv 7 exFarState =
      .ok [(5, 7, 21600), (6, 7, 21700), (7, 7, 21800), (8, 7, 21900)] ∧
    ([(5, 7, 21600), (6, 7, 21700), (7, 7, 21800), (8, 7, 21900)] : List Event) ≠ [] := by
  constructor
  · norm_num [flushVehicle, hourOf, exEnv, exFarState]
  · simp

lemma flush_events_ne_nil (l1 : List ℕ) (l2 : List ℚ) (busID : ℕ)
    (h1 : l1 ≠ []) (h2 : l2 ≠ []) :
    (l1.zip l2).map (fun pr : ℕ × ℚ => (pr.1, busID, pr.2)) ≠ [] := by
  cases l1 with
  | nil => exact absurd rfl h1
  | cons a t1 =>
    cases l2 with
    | nil => exact absurd rfl h2
    | cons b t2 => simp

/-- C2 amended: every leftover buffer of more than 3 samples whose first
sample's hour is at least the window start is flushed as pass events; when
the last matched stop is 1 stop (ylast = 36) or 2 stops (ylast = 35) short
of terminal 37 the remaining stops are first extrapolated at the velocity
of the last two buffered samples (collapsing to the last pass time when
that velocity is zero), otherwise the buffered samples are emitted
unchanged; in every case a successful flush emits at least one event. -/
theorem end_flush (env : Env) (busID : ℕ) (s : VehState) (x0 : ℚ) (ylast : ℕ)
    (h3 : s.y.length > 3) (hx0 : s.x.head? = some x0)
    (hh : env.startH ≤ hourOf x0) (hyl : s.y.getLast? = some ylast) :
    (¬(0 < (37 : ℤ) - (ylast : ℤ) ∧ (37 : ℤ) - (ylast : ℤ) < 3) →
      flushVehicle env busID s =
        .ok ((s.y.zip s.x).map (fun pr : ℕ × ℚ => (pr.1, busID, pr.2)))) ∧
    (∀ pL pL2 : Pos, ∀ xL xL2 : ℚ, ylast = 36 →
      s.p.getLast? = some pL → s.p.dropLast.getLast? = some pL2 →
      s.x.getLast? = some xL → s.x.dropLast.getLast? = some xL2 →
      xL - xL2 ≠ 0 →
      flushVehicle env busID s =
        .ok (((s.y ++ [37]).zip
              (s.x ++ [if (env.travDist pL - env.travDist pL2) / (xL - xL2) ≠ 0 then
                  xL + (14525 - env.travDist pL) /
                    ((env.travDist pL - env.travDist pL2) / (xL - xL2))
                else xL])).map
             (fun pr : ℕ × ℚ => (pr.1, busID, pr.2)))) ∧
    (∀ pL pL2 : Pos, ∀ xL xL2 : ℚ, ∀ st36 : Stop, ylast = 35 →
      s.p.getLast? = some pL → s.p.dropLast.getLast? = some pL2 →
      s.x.getLast? = some xL → s.x.dropLast.getLast? = some xL2 →
      xL - xL2 ≠ 0 →
      env.busStops.find? (fun st => st.id == 36) = some st36 →
      flushVehicle env busID s =
        .ok (((s.y ++ [st36.id, 37]).zip
              (s.x ++ [if (env.travDist pL - env.travDist pL2) / (xL - xL2) ≠ 0 then
                  xL + ((st36.dist : ℚ) - env.travDist pL) /
                    ((env.travDist pL - env.travDist pL2) / (xL - xL2))
                else xL,
                if (env.travDist pL - env.travDist pL2) / (xL - xL2) ≠ 0 then
                  xL + (14525 - env.travDist pL) /
                    ((env.travDist pL - env.travDist pL2) / (xL - xL2))
                else xL])).map
             (fun pr : ℕ × ℚ => (pr.1, busID, pr.2)))) ∧
    (∀ evs : List Event, flushVehicle env busID s = .ok evs → evs ≠ []) := by
  refine ⟨?_, ?_, ?_, ?_⟩
  · intro hfar
    simp only [flushVehicle, if_pos h3, hx0, if_pos hh, hyl]
    rw [if_neg hfar]
  · intro pL pL2 xL xL2 hy36 hp1 hp2 hx1 hx2 hden
    subst hy36
    simp only [flushVehicle, if_pos h3, hx0, if_pos hh, hyl]
    rw [if_pos (by norm_num : (0 : ℤ) < 37 - ((36 : ℕ) : ℤ) ∧ (37 : ℤ) - ((36 : ℕ) : ℤ) < 3)]
    simp only [hp1, hp2, hx1, hx2]
    rw [if_neg hden]
    have ht : ((37 : ℤ) - ((36 : ℕ) : ℤ)).toNat = 1 := by decide
    rw [ht]
    simp only [extraStops, extraStop]
    norm_num
  · intro pL pL2 xL xL2 st36 hy35 hp1 hp2 hx1 hx2 hden h36
    subst hy35
    simp only [flushVehicle, if_pos h3, hx0, if_pos hh, hyl]
    rw [if_pos (by norm_num : (0 : ℤ) < 37 - ((35 : ℕ) : ℤ) ∧ (37 : ℤ) - ((35 : ℕ) : ℤ) < 3)]
    simp only [hp1, hp2, hx1, hx2]
    rw [if_neg hden]
    have ht : ((37 : ℤ) - ((35 : ℕ) : ℤ)).toNat = 2 := by decide
    rw [ht]
    simp only [extraStops, extraStop]
    norm_num [h36]
  · intro evs hevs
    have hyne : s.y ≠ [] := List.ne_nil_of_length_pos (by omega)
    have hxne : s.x ≠ [] := by
      intro hx
      rw [hx] at hx0
      cases hx0
    simp only [flushVehicle, if_pos h3, hx0, if_pos hh, hyl] at hevs
    split at hevs
    · split at hevs
      · split at hevs
        · exact absurd hevs (by simp)
        · split at hevs
          · exact absurd hevs (by simp)
          · injection hevs with hevs
            rw [← hevs]
            apply flush_events_ne_nil
            · intro hcontra
              exact hyne (List.append_eq_nil.mp hcontra).1
            · intro hcontra
              exact hxne (List.append_eq_nil.mp hcontra).1
      · exact absurd hevs (by simp)
    · injection hevs with hevs
      rw [← hevs]
      exact flush_events_ne_nil s.y s.x busID hyne hxne

/-- Two-stop table with the terminal seed and stop 36, for exercising the
two-stops-short extrapolation. -/
def exStops36 : List Stop :=
  [⟨1, true, 0, 0, 0⟩, ⟨36, false, 36, 36, 14000⟩]

/-- Environment over `exStops36` with the same oracles as `exEnv`. -/
def exEnv36 : Env :=
  ⟨400, 5, 12, fun a b => if a = b then 0 else 1000, fun pos => pos.1 * 100,
   fun _ => 0, exStops36⟩

/-- Leftover state whose buffer stalled 2 stops short of the terminal. -/
def exNearState35 : VehState :=
  ⟨none, none, [21600, 21700, 21800, 21900], [21600, 21700, 21800, 21900],
   [30, 33, 34, 35], [(1, 1), (2, 2), (3, 3), (4, 4)]⟩

/-- Witness for `end_flush`: a buffer stalled 2 stops short of the terminal
is flushed with extrapolated stop-36 and stop-37 events. -/
theorem end_flush_witness :
    flushVehicle exEnv36 9 exNearState35 =
      .ok [(30, 9, 21600), (33, 9, 21700), (34, 9, 21800), (35, 9, 21900),
           (36, 9, 35500), (37, 9, 36025)] := by
  have h := (end_flush exEnv36 9 exNearState35 21600 35 (by norm_num [exNearState35])
      (by norm_num [exNearState35]) (by norm_num [hourOf, exEnv36])
      (by norm_num [exNearState35])).2.2.1
    (4, 4) (3, 3) 21900 21800 ⟨36, false, 36, 36, 14000⟩ rfl
    (by norm_num [exNearState35]) (by norm_num [exNearState35])
    (by norm_num [exNearState35]) (by norm_num [exNearState35]) (by norm_num)
    (by norm_num [exEnv36, exStops36])
  rw [h]
  norm_num [exNearState35, exEnv36]

/-- Comparator of the in-place sort of `deriveHeadway`
(`rawHeadwaysAtStop.sort(key=lambda x: x[1])`): pass time only. -/
def timeLe (a b : ℕ × ℚ) : Bool := decide (a.2 ≤ b.2)

/-- Specification-side comparator (§4.4): pass time ascending with ties
broken by vehicle id.  Kept separate from the source-derived `timeLe` to
compare the two orderings. -/
def lexLe (a b : ℕ × ℚ) : Bool :=
  decide (a.2 < b.2 ∨ (a.2 = b.2 ∧ a.1 ≤ b.1))

/-- The per-stop body of `deriveHeadway` (analyze.py:469-476): sort the
stop's (vehicle, pass time) records by pass time, then map each
consecutive pair (`zip(raw[:-1], raw[1:])`) to its time difference. -/
def deriveHeadwayAtStop (l : List (ℕ × ℚ)) : List ℚ :=
  let sortedL := l.mergeSort timeLe
  (sortedL.dropLast.zip sortedL.tail).map (fun pr => pr.2.2 - pr.1.2)

/-- The (vehicle, pass time) records accumulated in `rawHeadway[stopID]`,
read off the flat event list in emission order. -/
def eventsAtStop (raw : List Event) (stopID : ℕ) : List (ℕ × ℚ) :=
  (raw.filter (fun e => e.1 == stopID)).map (fun e => (e.2.1, e.2.2))

/-- `deriveHeadway` (analyze.py:465-481) restricted to one stop. -/
def deriveHeadway (raw : List Event) (stopID : ℕ) : List ℚ :=
  deriveHeadwayAtStop (eventsAtStop raw stopID)

/-- Consecutive differences of a list of times. -/
def diffsOfTimes : List ℚ → List ℚ
  | [] => []
  | [_] => []
  | a :: b :: t => (b - a) :: diffsOfTimes (b :: t)

/-- Specification-side sort of a stop's records (§4.4): by pass time
ascending, ties broken by vehicle id. -/
def sortByTimeThenVehicle (l : List (ℕ × ℚ)) : List (ℕ × ℚ) :=
  l.mergeSort lexLe

lemma zip_diffs (A : List (ℕ × ℚ)) :
    (A.dropLast.zip A.tail).map (fun pr => pr.2.2 - pr.1.2) =
      diffsOfTimes (A.map (fun e => e.2)) := by
  induction A with
  | nil => rfl
  | cons a t ih =>
    cases t with
    | nil => rfl
    | cons b t2 =>
      simp only [List.dropLast_cons₂, List.tail_cons, List.zip_cons_cons, List.map_cons,
        diffsOfTimes] at ih ⊢
      rw [ih]

lemma timeLe_trans : ∀ a b c : ℕ × ℚ, timeLe a b → timeLe b c → timeLe a c := by
  intro a b c hab hbc
  simp only [timeLe, decide_eq_true_eq] at *
  exact le_trans hab hbc

lemma timeLe_total : ∀ a b : ℕ × ℚ, timeLe a b || timeLe b a := by
  intro a b
  simp only [timeLe, Bool.or_eq_true, decide_eq_true_eq]
  exact le_total a.2 b.2

lemma lexLe_trans : ∀ a b c : ℕ × ℚ, lexLe a b → lexLe b c → lexLe a c := by
  intro a b c hab hbc
  simp only [lexLe, decide_eq_true_eq] at *
  rcases hab with h1 | ⟨h1, h1v⟩ <;> rcases hbc with h2 | ⟨h2, h2v⟩
  · exact Or.inl (lt_trans h1 h2)
  · exact Or.inl (h2 ▸ h1)
  · exact Or.inl (h1 ▸ h2)
  · exact Or.inr ⟨h1.trans h2, le_trans h1v h2v⟩

lemma lexLe_total : ∀ a b : ℕ × ℚ, lexLe a b || lexLe b a := by
  intro a b
  simp only [lexLe, Bool.or_eq_true, decide_eq_true_eq]
  rcases lt_trichotomy a.2 b.2 with h | h | h
  · exact Or.inl (Or.inl h)
  · rcases le_total a.1 b.1 with hv | hv
    · exact Or.inl (Or.inr ⟨h, hv⟩)
    · exact Or.inr (Or.inr ⟨h.symm, hv⟩)
  · exact Or.inr (Or.inl h)

lemma sorted_times_timeLe (l : List (ℕ × ℚ)) :
    ((l.mergeSort timeLe).map (fun e => e.2)).Pairwise (· ≤ ·) := by
  have h := List.sorted_mergeSort timeLe_trans timeLe_total l
  exact h.map _ (fun a b hab => by simpa [timeLe] using hab)

lemma sorted_times_lexLe (l : List (ℕ × ℚ)) :
    ((l.mergeSort lexLe).map (fun e => e.2)).Pairwise (· ≤ ·) := by
  have h := List.sorted_mergeSort lexLe_trans lexLe_total l
  refine h.map _ (fun a b hab => ?_)
  simp only [lexLe, decide_eq_true_eq] at hab
  rcases hab with h1 | ⟨h1, -⟩
  · exact le_of_lt h1
  · exact le_of_eq h1

lemma sorted_times_unique {A B : List (ℕ × ℚ)} (hperm : A.Perm B)
    (hA : (A.map (fun e => e.2)).Pairwise (· ≤ ·))
    (hB : (B.map (fun e => e.2)).Pairwise (· ≤ ·)) :
    A.map (fun e => e.2) = B.map (fun e => e.2) :=
  List.eq_of_perm_of_sorted (hperm.map _) hA hB

lemma diffs_nonneg : ∀ ts : List ℚ, ts.Pairwise (· ≤ ·) → ∀ h ∈ diffsOfTimes ts, 0 ≤ h := by
  intro ts
  induction ts with
  | nil => intro _ h hh; cases hh
  | cons a t ih =>
    intro hp h hh
    cases t with
    | nil => cases hh
    | cons b t2 =>
      simp only [diffsOfTimes, List.mem_cons] at hh
      rcases hh with rfl | hh
      · have hab : a ≤ b := (List.pairwise_cons.mp hp).1 b (by simp)
        linarith
      · exact ih (List.pairwise_cons.mp hp).2 h hh

lemma diffsOfTimes_short (ts : List ℚ) (h : ts.length < 2) : diffsOfTimes ts = [] := by
  match ts with
  | [] => rfl
  | [_] => rfl
  | a :: b :: t => exact absurd h (by simp)

lemma deriveHeadwayAtStop_eq_diffs (l : List (ℕ × ℚ)) :
    deriveHeadwayAtStop l = diffsOfTimes ((l.mergeSort timeLe).map (fun e => e.2)) := by
  simp only [deriveHeadwayAtStop]
  exact zip_diffs (l.mergeSort timeLe)

/-- C4: headway derivation is invariant under the arrival order of the
events; on each stop it returns the consecutive differences of the group's
pass times sorted ascending (equivalently, of the specification order with
vehicle-id tie-breaks); all differences are non-negative, and a stop with
fewer than 2 events yields no samples. -/
theorem deriveHeadway_spec (raw raw2 : List Event) (stopID : ℕ)
    (hperm : raw.Perm raw2) :
    deriveHeadway raw stopID = deriveHeadway raw2 stopID ∧
    deriveHeadway raw stopID =
      diffsOfTimes ((sortByTimeThenVehicle (eventsAtStop raw stopID)).map (fun e => e.2)) ∧
    (∀ h ∈ deriveHeadway raw stopID, 0 ≤ h) ∧
    ((eventsAtStop raw stopID).length < 2 → deriveHeadway raw stopID = []) := by
  have hgroup : (eventsAtStop raw stopID).Perm (eventsAtStop raw2 stopID) :=
    (hperm.filter _).map _
  refine ⟨?_, ?_, ?_, ?_⟩
  · rw [deriveHeadway, deriveHeadway, deriveHeadwayAtStop_eq_diffs,
      deriveHeadwayAtStop_eq_diffs]
    have hp : ((eventsAtStop raw stopID).mergeSort timeLe).Perm
        ((eventsAtStop raw2 stopID).mergeSort timeLe) :=
      ((List.mergeSort_perm _ _).trans hgroup).trans (List.mergeSort_perm _ _).symm
    rw [sorted_times_unique hp (sorted_times_timeLe _) (sorted_times_timeLe _)]
  · rw [deriveHeadway, deriveHeadwayAtStop_eq_diffs, sortByTimeThenVehicle]
    have hp : ((eventsAtStop raw stopID).mergeSort timeLe).Perm
        ((eventsAtStop raw stopID).mergeSort lexLe) :=
      (List.mergeSort_perm _ _).trans (List.mergeSort_perm _ _).symm
    rw [sorted_times_unique hp (sorted_times_timeLe _) (sorted_times_lexLe _)]
  · rw [deriveHeadway, deriveHeadwayAtStop_eq_diffs]
    exact diffs_nonneg _ (sorted_times_timeLe _)
  · intro hlen
    rw [deriveHeadway, deriveHeadwayAtStop_eq_diffs]
    apply diffsOfTimes_short
    simpa using hlen

/-- Witness for `deriveHeadway_spec`: a stop with a single event yields no
headway samples. -/
theorem deriveHeadway_spec_witness :
    deriveHeadway [(3, 1, 250)] 3 = [] :=
  (deriveHeadway_spec [(3, 1, 250)] [(3, 1, 250)] 3 (List.Perm.refl _)).2.2.2
    (by norm_num [eventsAtStop])

/-- C5: the interpolated pass time follows the constant-velocity formula
`prevTime + (stop.cumulative_distance - prevDistance) / velocity`, and
degenerates to `prevTime` when the velocity is zero. -/
theorem interpolation_formula (busStops : List Stop) (pd pt v : ℚ) (idx : ℕ)
    (st : Stop) (h : busStops.find? (fun s2 => s2.id == idx) = some st) :
    (v ≠ 0 → interpStop busStops pd pt v idx = .ok (pt + ((st.dist : ℚ) - pd) / v, st.id)) ∧
    (v = 0 → interpStop busStops pd pt v idx = .ok (pt, st.id)) := by
  constructor
  · intro hv
    simp only [interpStop, h]
    rw [if_pos hv]
  · intro hv
    simp only [interpStop, h]
    rw [if_neg (by simp [hv])]

/-- Witness for `interpolation_formula` at stop 6 of the concrete table. -/
theorem interpolation_formula_witness :
    interpStop exStops 500 21600 1 6 = .ok (21700, 6) := by
  have h := (interpolation_formula exStops 500 21600 1 6 ⟨6, false, 6, 6, 600⟩
    (by norm_num [exStops])).1 (by norm_num)
  rw [h]
  norm_num

/-- numpy `mean`: NaN (modelled as `none`) on an empty array. -/
def npMean (H : List ℚ) : Option ℚ :=
  if H = [] then none else some (H.sum / H.length)

/-- numpy `std`, its square root supplied as a pure oracle on rationals;
NaN (modelled as `none`) on an empty array. -/
def npStd (sqrt : ℚ → ℚ) (H : List ℚ) : Option ℚ :=
  match npMean H with
  | none => none
  | some m => some (sqrt ((H.map (fun h => (h - m) ^ 2)).sum / H.length))

/-- numpy `min`: raises `ValueError` on an empty array. -/
def npMin (H : List ℚ) : Except String ℚ :=
  match H with
  | [] => .error "ValueError"
  | h :: t => .ok (t.foldl min h)

/-- numpy `max`: raises `ValueError` on an empty array. -/
def npMax (H : List ℚ) : Except String ℚ :=
  match H with
  | [] => .error "ValueError"
  | h :: t => .ok (t.foldl max h)

/-- The per-stop statistics block of `main` (analyze.py:526-532):
`cvh = np.std(H - headway) / headway`, `media = np.mean(H)`,
`np.min(H)`, `np.max(H)`. -/
def summaryStats (sqrt : ℚ → ℚ) (H : List ℚ) (headway : ℚ) :
    Except String (Option ℚ × Option ℚ × ℚ × ℚ) :=
  let cvh := (npStd sqrt (H.map (fun h => h - headway))).map (fun sd => sd / headway)
  let media := npMean H
  match npMin H with
  | .error e => .error e
  | .ok mn =>
    match npMax H with
    | .error e => .error e
    | .ok mx => .ok (cvh, media, mn, mx)

/-- C6 counterexample: the summary statistics of a stop with an empty
headway sample array raise `ValueError` (from `np.min`) instead of
reporting NaN values. -/
theorem empty_stats_raise :
    summaryStats (fun q => q) [] 1050 = .error "ValueError" := rfl

/-- C6 amended: on an empty sample array `np.mean` and `np.std` are NaN,
but `np.min` raises `ValueError`, so the summary step is an error for any
square-root oracle and scheduled headway. -/
theorem empty_stats_spec (sqrt : ℚ → ℚ) (headway : ℚ) :
    summaryStats sqrt [] headway = .error "ValueError" ∧
    npMean [] = none ∧ npStd sqrt [] = none := by
  exact ⟨rfl, rfl, rfl⟩

/-- Witness for `empty_stats_spec` at the identity square-root oracle and
the default scheduled headway of 1050 s. -/
theorem empty_stats_spec_witness :
    summaryStats (fun q => q) [] 1050 = .error "ValueError" ∧
    npMean [] = none ∧ npStd (fun q => q) [] = none :=
  empty_stats_spec (fun q => q) 1050

lemma getLastBusStop_mem (hav : Pos → Pos → ℚ) (pos : Pos) (td : ℚ)
    (bs : List Stop) (st : Stop) (w : Bool)
    (h : getLastBusStop hav pos td bs = some (st, w)) : st ∈ bs := by
  unfold getLastBusStop at h
  cases hfind : bs.find? (fun s2 => s2.id == 1) with
  | none => rw [hfind] at h; cases h
  | some s1 =>
    rw [hfind] at h
    injection h with h2
    have hmem := getLastBusStopGo_mem hav pos td bs s1 false
    rw [h2] at hmem
    simp only at hmem
    rcases hmem with h3 | h3
    · rw [h3]; exact List.mem_of_find?_eq_some hfind
    · exact h3

lemma interpStop_id (bs : List Stop) (pd pt v : ℚ) (idx : ℕ) (entry : ℚ × ℕ)
    (h : interpStop bs pd pt v idx = .ok entry) : entry.2 = idx := by
  unfold interpStop at h
  cases hfind : bs.find? (fun st => st.id == idx) with
  | none => rw [hfind] at h; cases h
  | some passedStop =>
    rw [hfind] at h
    injection h with h2
    have hp := List.find?_some hfind
    rw [← h2]
    simpa using hp

lemma interpStopsList_ids (bs : List Stop) (pi : ℕ) (pd pt v : ℚ) :
    ∀ (k : ℕ) (entries : List (ℚ × ℕ)),
      interpStopsList bs pi pd pt v k = .ok entries →
      entries.map (fun e => e.2) = (List.range k).map (fun i => pi + i + 1) := by
  intro k
  induction k with
  | zero =>
    intro entries h
    injection h with h2
    rw [← h2]
    simp
  | succ k ih =>
    intro entries h
    simp only [interpStopsList] at h
    cases hrec : interpStopsList bs pi pd pt v k with
    | error e => rw [hrec] at h; cases h
    | ok l =>
      rw [hrec] at h
      cases hone : interpStop bs pd pt v (pi + k + 1) with
      | error e => rw [hone] at h; cases h
      | ok entry =>
        rw [hone] at h
        injection h with h2
        rw [← h2, List.map_append, ih l hrec, List.range_succ, List.map_append]
        simp [interpStop_id bs pd pt v (pi + k + 1) entry hone]

lemma chain_range_map (pi k : ℕ) :
    List.Chain' (fun a b => a ≤ b) ((List.range k).map (fun i => pi + i + 1)) := by
  apply List.Pairwise.chain'
  exact (List.sorted_lt_range k).map _ (fun a b hab => by omega)

lemma range_map_ne_nil (pi k : ℕ) (hk : 0 < k) :
    ((List.range k).map (fun i => pi + i + 1)) ≠ [] := by
  apply List.ne_nil_of_length_pos
  simpa using hk

lemma range_map_getLast? (pi k : ℕ) (hk : 0 < k) :
    ((List.range k).map (fun i => pi + i + 1)).getLast? = some (pi + k) := by
  obtain ⟨k2, rfl⟩ : ∃ k2, k = k2 + 1 := ⟨k - 1, by omega⟩
  rw [List.range_succ, List.map_append]
  simp [List.getLast?_concat]
  omega

lemma range_map_head? (pi k : ℕ) (hk : 0 < k) :
    ((List.range k).map (fun i => pi + i + 1)).head? = some (pi + 1) := by
  obtain ⟨k2, rfl⟩ : ∃ k2, k = k2 + 1 := ⟨k - 1, by omega⟩
  rw [List.range_succ_eq_map]
  simp

/-- Auxiliary trip-buffer invariants of a tracked vehicle: stop ids
non-decreasing, pass-time and stop-id lists in sync, the last buffered stop
id agreeing with (and bounded like) the registered matched stop. -/
def BufferInv (s : VehState) : Prop :=
  List.Chain' (fun a b => a ≤ b) s.y ∧
  s.x.length = s.y.length ∧
  (∀ st : Stop, s.lastStop = some st → s.y.getLast? = some st.id) ∧
  (∀ st : Stop, s.lastStop = some st → st.id ≤ 37)

lemma buffer_step_body (env : Env) (s : VehState) (ping : Ping)
    (s2 : VehState) (evs : List Event)
    (HT : ∀ st ∈ env.busStops, st.id ≤ 37)
    (hInv : BufferInv s)
    (hstep : processPingBody env s ping = .ok (s2, evs)) :
    (s2.x.length = s2.y.length ∧
     (∀ st : Stop, s2.lastStop = some st → s2.y.getLast? = some st.id) ∧
     (∀ st : Stop, s2.lastStop = some st → st.id ≤ 37)) ∧
    (List.Chain' (fun a b => a ≤ b) s2.y ∨
      (∃ c, c ≤ 37 ∧ s2.y = s.y.dropLast ++ [c] ∧ s2.x = s.x.dropLast ++ [ping.date])) := by
  obtain ⟨hChain, hSync, hLastEq, hBound⟩ := hInv
  simp only [processPingBody] at hstep
  split at hstep
  · -- outlier branch
    simp only [Except.ok.injEq, Prod.mk.injEq] at hstep
    obtain ⟨rfl, rfl⟩ := hstep
    exact ⟨⟨hSync, by simp, by simp⟩, Or.inl hChain⟩
  · split at hstep
    · -- getLastBusStop raised KeyError
      exact absurd hstep (by simp)
    · rename_i lbw lb w heqM
      have hlbid : lb.id ≤ 37 :=
        HT lb (getLastBusStop_mem env.hav _ _ env.busStops lb w heqM)
      split at hstep
      · -- cold start
        simp only [Except.ok.injEq, Prod.mk.injEq] at hstep
        obtain ⟨rfl, rfl⟩ := hstep
        refine ⟨⟨by simp, ?_, ?_⟩, Or.inl (by simp)⟩
        · intro st hst
          injection hst with hst
          subst hst
          rfl
        · intro st hst
          injection hst with hst
          subst hst
          exact hlbid
      · rename_i lastReg heqS
        split at hstep
        · -- lastRegBusPosition empty: KeyError
          exact absurd hstep (by simp)
        · rename_i prevAVL heqP
          split at hstep
          · rename_i lastX lastP heqX heqP2
            split at hstep
            · -- stale-gap reset: right disjunct
              simp only [Except.ok.injEq, Prod.mk.injEq] at hstep
              obtain ⟨rfl, rfl⟩ := hstep
              refine ⟨⟨?_, ?_, ?_⟩, Or.inr ⟨lb.id, hlbid, rfl, rfl⟩⟩
              · simp only [List.length_append, List.length_dropLast, List.length_cons,
                  List.length_nil, hSync]
              · intro st hst
                injection hst with hst
                subst hst
                simp [List.getLast?_concat]
              · intro st hst
                injection hst with hst
                subst hst
                exact hlbid
            · split at hstep
              · -- backward jump to stop 1 with short buffer: re-seeded trip
                simp only [Except.ok.injEq, Prod.mk.injEq] at hstep
                obtain ⟨rfl, rfl⟩ := hstep
                refine ⟨⟨by simp, ?_, ?_⟩, Or.inl (by simp)⟩
                · intro st hst
                  injection hst with hst
                  subst hst
                  rfl
                · intro st hst
                  injection hst with hst
                  subst hst
                  exact hlbid
              · split at hstep
                · -- trip completion flush
                  split at hstep
                  · simp only [Except.ok.injEq, Prod.mk.injEq] at hstep
                    obtain ⟨rfl, rfl⟩ := hstep
                    exact ⟨⟨by simp, by simp, by simp⟩, Or.inl (by simp)⟩
                  · -- empty buffer: impossible, the x-getLast? match succeeded
                    rename_i hxe
                    rw [not_not] at hxe
                    rw [hxe] at heqX
                    cases heqX
                · split at hstep
                  · -- other backward jump: position update only
                    simp only [Except.ok.injEq, Prod.mk.injEq] at hstep
                    obtain ⟨rfl, rfl⟩ := hstep
                    exact ⟨⟨hSync, fun st hst => hLastEq st (heqS ▸ hst),
                      fun st hst => hBound st (heqS ▸ hst)⟩, Or.inl hChain⟩
                  · split at hstep
                    · -- curvature artifact: position update only
                      simp only [Except.ok.injEq, Prod.mk.injEq] at hstep
                      obtain ⟨rfl, rfl⟩ := hstep
                      exact ⟨⟨hSync, fun st hst => hLastEq st (heqS ▸ hst),
                        fun st hst => hBound st (heqS ▸ hst)⟩, Or.inl hChain⟩
                    · split at hstep
                      · -- forward progress, k > 0
                        rename_i hfwd
                        split at hstep
                        · exact absurd hstep (by simp)
                        · split at hstep
                          · exact absurd hstep (by simp)
                          · rename_i entries heqI
                            simp only [Except.ok.injEq, Prod.mk.injEq] at hstep
                            obtain ⟨rfl, rfl⟩ := hstep
                            have hk : 0 < lb.id - lastReg.id := by omega
                            have hids := interpStopsList_ids env.busStops lastReg.id _ _ _
                              (lb.id - lastReg.id) entries heqI
                            have hylast : s.y.getLast? = some lastReg.id :=
                              hLastEq lastReg heqS
                            refine ⟨⟨by simp [hSync], ?_, ?_⟩, Or.inl ?_⟩
                            · intro st hst
                              injection hst with hst
                              subst hst
                              simp only
                              rw [List.getLast?_append, hids, range_map_getLast? _ _ hk]
                              simp only [Option.or_some]
                              congr 1
                              omega
                            · intro st hst
                              injection hst with hst
                              subst hst
                              exact hlbid
                            · simp only
                              rw [List.chain'_append]
                              refine ⟨hChain, ?_, ?_⟩
                              · rw [hids]; exact chain_range_map _ _
                              · intro a ha b hb
                                rw [hylast] at ha
                                rw [hids, range_map_head? _ _ hk] at hb
                                injection ha with ha
                                injection hb with hb
                                omega
                      · -- same matched stop: state update only
                        rename_i hnfwd
                        simp only [Except.ok.injEq, Prod.mk.injEq] at hstep
                        obtain ⟨rfl, rfl⟩ := hstep
                        rename_i hn343 hn354 hn379 hn382
                        have hylast : s.y.getLast? = some lastReg.id :=
                          hLastEq lastReg heqS
                        have hid : lb.id = lastReg.id := by omega
                        refine ⟨⟨hSync, ?_, ?_⟩, Or.inl hChain⟩
                        · intro st hst
                          injection hst with hst
                          subst hst
                          rw [hylast, hid]
                        · intro st hst
                          injection hst with hst
                          subst hst
                          exact hlbid
          · exact absurd hstep (by simp)

/-- C9 amended: each accepted processing step preserves the list-sync and
matched-stop invariants, and keeps the buffered stop ids non-decreasing,
EXCEPT that a stale-gap reset rewrites exactly the last buffered sample
(so non-decreasingness survives a reset only when at most one sample was
buffered, and the concrete trace of `buffer_not_monotone` breaks it). -/
theorem buffer_monotone_step (env : Env) (s : VehState) (ping : Ping)
    (s2 : VehState) (evs : List Event)
    (HT : ∀ st ∈ env.busStops, st.id ≤ 37)
    (hInv : BufferInv s)
    (hstep : processPing env s ping = .ok (s2, evs)) :
    (s2.x.length = s2.y.length ∧
     (∀ st : Stop, s2.lastStop = some st → s2.y.getLast? = some st.id) ∧
     (∀ st : Stop, s2.lastStop = some st → st.id ≤ 37)) ∧
    (List.Chain' (fun a b => a ≤ b) s2.y ∨
      (∃ c, c ≤ 37 ∧ s2.y = s.y.dropLast ++ [c] ∧ s2.x = s.x.dropLast ++ [ping.date])) := by
  have hkeep : s2 = s →
      (s2.x.length = s2.y.length ∧
       (∀ st : Stop, s2.lastStop = some st → s2.y.getLast? = some st.id) ∧
       (∀ st : Stop, s2.lastStop = some st → st.id ≤ 37)) ∧
      (List.Chain' (fun a b => a ≤ b) s2.y ∨
        (∃ c, c ≤ 37 ∧ s2.y = s.y.dropLast ++ [c] ∧ s2.x = s.x.dropLast ++ [ping.date])) := by
    rintro rfl
    obtain ⟨hChain, hSync, hLastEq, hBound⟩ := hInv
    exact ⟨⟨hSync, hLastEq, hBound⟩, Or.inl hChain⟩
  simp only [processPing] at hstep
  split at hstep
  · split at hstep
    · split at hstep
      · simp only [Except.ok.injEq, Prod.mk.injEq] at hstep
        exact hkeep hstep.1.symm
      · exact buffer_step_body env s ping s2 evs HT hInv hstep
    · exact buffer_step_body env s ping s2 evs HT hInv hstep
  · simp only [Except.ok.injEq, Prod.mk.injEq] at hstep
    exact hkeep hstep.1.symm

/-- Forward-progress ping of vehicle 7 at stop 2 after `exPingA`. -/
def exPingFwd : Ping := ⟨21700, 400, 7, 2, 2, "EM OPERACAO"⟩

/-- Witness for `buffer_monotone_step` on the concrete forward step from
stop 1 to stop 2. -/
theorem buffer_monotone_step_witness :
    ((⟨some exPingFwd, some ⟨2, false, 2, 2, 200⟩, [21600, 21700], [21600, 21700],
        [1, 2], [(0, 0), (2, 2)]⟩ : VehState).x.length =
      (⟨some exPingFwd, some ⟨2, false, 2, 2, 200⟩, [21600, 21700], [21600, 21700],
        [1, 2], [(0, 0), (2, 2)]⟩ : VehState).y.length ∧
     (∀ st : Stop, (⟨some exPingFwd, some ⟨2, false, 2, 2, 200⟩, [21600, 21700],
        [21600, 21700], [1, 2], [(0, 0), (2, 2)]⟩ : VehState).lastStop = some st →
       (⟨some exPingFwd, some ⟨2, false, 2, 2, 200⟩, [21600, 21700], [21600, 21700],
        [1, 2], [(0, 0), (2, 2)]⟩ : VehState).y.getLast? = some st.id) ∧
     (∀ st : Stop, (⟨some exPingFwd, some ⟨2, false, 2, 2, 200⟩, [21600, 21700],
        [21600, 21700], [1, 2], [(0, 0), (2, 2)]⟩ : VehState).lastStop = some st →
       st.id ≤ 37)) ∧
    (List.Chain' (fun a b => a ≤ b)
      (⟨some exPingFwd, some ⟨2, false, 2, 2, 200⟩, [21600, 21700], [21600, 21700],
        [1, 2], [(0, 0), (2, 2)]⟩ : VehState).y ∨
      (∃ c, c ≤ 37 ∧
        (⟨some exPingFwd, some ⟨2, false, 2, 2, 200⟩, [21600, 21700], [21600, 21700],
          [1, 2], [(0, 0), (2, 2)]⟩ : VehState).y = exStateA.y.dropLast ++ [c] ∧
        (⟨some exPingFwd, some ⟨2, false, 2, 2, 200⟩, [21600, 21700], [21600, 21700],
          [1, 2], [(0, 0), (2, 2)]⟩ : VehState).x = exStateA.x.dropLast ++ [exPingFwd.date])) := by
  apply buffer_monotone_step exEnv exStateA exPingFwd _ []
  · intro st hst
    fin_cases hst <;> norm_num
  · refine ⟨by simp [exStateA], by simp [exStateA], ?_, ?_⟩ <;>
      (intro st hst; simp only [exStateA, Option.some.injEq] at hst; subst hst; simp [exStateA])
  · have hs : ("EM OPERACAO" = "FORA DE SERVICO") = False := by
      simp only [eq_iff_iff, iff_false]; decide
    norm_num [processPing, processPingBody, outlier, getLastBusStop,
      getLastBusStopGo, staleGapReset, interpStopsList, interpStop, hourOf,
      exEnv, exStops, exPingA, exPingFwd, exStateA, hs]

end HeadwayAnalysis
